import Mathlib

/-!
# Verification of the per-host connection pool (`src/pool.hpp`)

A shallow embedding of `cass::Pool` and its nested `Pool::PoolHandler`
from `src/pool.hpp` of the cpp-driver repository.

Modelling conventions:
* `connections_`, `connections_pending_` and `pending_request_queue_`
  (`std::list`s of raw pointers) become Lean lists of identifiers
  (`Nat` for connections; queued requests carry an id and a timer field).
* Calls the pool makes on its collaborators (`connect_callback_`,
  `close_callback_`, `retry_callback_`, `ClientConnection::connect/close`,
  `Timer::start/stop`, dispatching a request) are recorded as an output
  list of `Notif` values, in program order.
* Attributes the pool reads from a `ClientConnection`
  (`is_ready`, `is_closing`, `is_defunct`, `available_streams`) are
  external state; each event is therefore parameterised by an
  environment `Env : Nat → ConnAttrs` giving the attribute snapshot the
  pool observes during that callback, and by the boolean result of
  `ClientConnection::execute` where the code consults it.
* Numeric protocol constants (`CQL_OPCODE_RESULT`, `CQL_OPCODE_ERROR`,
  `CQL_ERROR_UNPREPARED`, `CASS_ERROR_LIB_WRITE_ERROR`) live in headers
  outside this file; only their distinctness matters to the control
  flow, and they are given their wire-protocol values.
-/

namespace CassPool

/-- The configuration options `Pool` reads from `const Config& config_`. -/
structure Config where
  core_connections_per_host : Nat
  max_connections_per_host : Nat
  max_simultaneous_creation : Nat
  max_pending_requests : Nat
  connect_timeout : Nat
  deriving Repr, DecidableEq

/-- The attribute snapshot of one `ClientConnection` as observed by the
pool during a single callback: `is_ready()`, `is_closing()`,
`is_defunct()`, `available_streams()`. -/
structure ConnAttrs where
  ready : Bool
  closing : Bool
  defunct : Bool
  availableStreams : Nat
  deriving Repr, DecidableEq

/-- Environment: the attributes each connection id currently reports. -/
def Env : Type := Nat → ConnAttrs

/-- A queued request handler: its identity plus the timer handle the pool
stores in `request_handler->timer` (`some d` = an armed timer of duration
`d`, `none` = no timer / cleared). -/
structure Req where
  rid : Nat
  timer : Option Nat
  deriving Repr, DecidableEq

/-- Outward-visible actions of the pool, in program order:
callbacks fired on the owner and calls made on collaborators. -/
inductive Notif where
  /-- `connect_callback_(host_)` -/
  | connectN : Notif
  /-- `close_callback_(host_)` -/
  | closeN : Notif
  /-- `retry_callback_(request_handler, RETRY_WITH_NEXT_HOST)` -/
  | retryN (rid : Nat) : Notif
  /-- the pool called `connection->close()` on connection `c` -/
  | connCloseCmd (c : Nat) : Notif
  /-- the pool called `connection->connect()` on fresh connection `c` -/
  | connConnectCmd (c : Nat) : Notif
  /-- `Timer::start(loop_, d, request_handler, ...)` for request `rid` -/
  | timerStart (rid : Nat) (d : Nat) : Notif
  /-- `Timer::stop(request_handler->timer)` for request `rid` -/
  | timerStop (rid : Nat) : Notif
  /-- request `rid` was handed to `connection->execute` on `c` and accepted -/
  | dispatched (rid : Nat) (c : Nat) : Notif
  deriving Repr, DecidableEq

/-- The mutable fields of `cass::Pool`: the ready list `connections_`,
the connecting list `connections_pending_`, `pending_request_queue_`,
and `is_closing_`.  `nextConnId` supplies the identity of the next
`new ClientConnection`. -/
structure PoolState where
  connections : List Nat
  connectionsPending : List Nat
  pendingRequestQueue : List Req
  isClosing : Bool
  nextConnId : Nat
  deriving Repr, DecidableEq

/-- Embeds `Pool::maybe_close()`.  Mutates no pool field: if `is_closing_`, it
issues `c->close()` to every ready connection not already closing, and
fires `close_callback_(host_)` when ready set, connecting set and queue
are all empty. -/
def maybe_close (env : Env) (s : PoolState) : List Notif :=
  if s.isClosing then
    ((s.connections.filter (fun c => !(env c).closing)).map Notif.connCloseCmd)
      ++ (if s.connections.isEmpty && s.connectionsPending.isEmpty
             && s.pendingRequestQueue.isEmpty
          then [Notif.closeN] else [])
  else []

/-- Embeds `Pool::close()`: set `is_closing_`, call `c->close()` on every ready
connection, then `maybe_close()`. -/
def Pool.close (env : Env) (s : PoolState) : PoolState × List Notif :=
  let s' : PoolState := { s with isClosing := true }
  (s', s'.connections.map Notif.connCloseCmd ++ maybe_close env s')

/-- Embeds `Pool::spawn_connection()`: no-op when closing; otherwise create a
fresh connection, call `connect()` on it, and push it onto
`connections_pending_`. -/
def spawn_connection (s : PoolState) : PoolState × List Notif :=
  if s.isClosing then (s, [])
  else ({ s with
          connectionsPending := s.connectionsPending ++ [s.nextConnId],
          nextConnId := s.nextConnId + 1 },
        [Notif.connConnectCmd s.nextConnId])

/-- The `for (size_t i = 0; i < n; ++i) spawn_connection();` loops in the
constructor and in `borrow_connection`. -/
def spawnLoop : Nat → PoolState → PoolState × List Notif
  | 0, s => (s, [])
  | n + 1, s =>
    let (s', out) := spawn_connection s
    let (t, outs) := spawnLoop n s'
    (t, out ++ outs)

/-- Embeds `Pool::maybe_spawn_connection()`: spawn only when the connecting set
is below `max_simultaneous_creation` and ready + connecting is below
`max_connections_per_host`. -/
def maybe_spawn_connection (cfg : Config) (s : PoolState) :
    PoolState × List Notif :=
  if s.connectionsPending.length ≥ cfg.max_simultaneous_creation then (s, [])
  else if s.connections.length + s.connectionsPending.length
          ≥ cfg.max_connections_per_host then (s, [])
  else spawn_connection s

/-- The `Pool` constructor: all fields empty / open, then spawn
`core_connections_per_host` connections. -/
def mkPool (cfg : Config) : PoolState × List Notif :=
  spawnLoop cfg.core_connections_per_host
    { connections := [], connectionsPending := [],
      pendingRequestQueue := [], isClosing := false, nextConnId := 0 }

/-- Embeds `Pool::execute_pending_request(connection)`: if the queue is
non-empty, pop the head, stop its timer when armed, and dispatch it on
`conn`; `accepts` is the boolean `ClientConnection::execute` returned.
On rejection, fire `retry_callback_(handler, RETRY_WITH_NEXT_HOST)`. -/
def execute_pending_request (accepts : Bool) (conn : Nat) (s : PoolState) :
    PoolState × List Notif :=
  match s.pendingRequestQueue with
  | [] => (s, [])
  | r :: rest =>
    ({ s with pendingRequestQueue := rest },
     (match r.timer with
      | some _ => [Notif.timerStop r.rid]
      | none => [])
       ++ (if accepts then [Notif.dispatched r.rid conn]
           else [Notif.retryN r.rid]))

/-- Embeds `Pool::wait_for_connection(request_handler)`: reject (returning
`false`, no state change) when closing or the queue is full; otherwise
start a `connect_timeout` timer for the request, append it to the queue
tail, and return `true`. -/
def wait_for_connection (cfg : Config) (rid : Nat) (s : PoolState) :
    PoolState × List Notif × Bool :=
  if s.isClosing || s.pendingRequestQueue.length + 1 > cfg.max_pending_requests
  then (s, [], false)
  else ({ s with pendingRequestQueue :=
            s.pendingRequestQueue ++ [⟨rid, some cfg.connect_timeout⟩] },
        [Notif.timerStart rid cfg.connect_timeout], true)

/-- Embeds `Pool::on_timeout(timer)`: remove the request from the queue
(`std::list::remove` erases every matching element), fire
`retry_callback_(handler, RETRY_WITH_NEXT_HOST)`, then `maybe_close()`. -/
def Pool.on_timeout (env : Env) (rid : Nat) (s : PoolState) :
    PoolState × List Notif :=
  let s' : PoolState :=
    { s with pendingRequestQueue :=
        s.pendingRequestQueue.filter (fun r => r.rid ≠ rid) }
  (s', [Notif.retryN rid] ++ maybe_close env s')

/-- Embeds `Pool::on_connection_connect(connection)`: fire the connect
notification, drop `c` from the connecting set; when closing, close the
connection; when `c` reports ready, append it to the ready set and run
`execute_pending_request(c)`. -/
def on_connection_connect (env : Env) (accepts : Bool) (c : Nat)
    (s : PoolState) : PoolState × List Notif :=
  let s' : PoolState :=
    { s with connectionsPending := s.connectionsPending.filter (· ≠ c) }
  if s'.isClosing then
    (s', [Notif.connectN, Notif.connCloseCmd c])
  else if (env c).ready then
    let s2 : PoolState := { s' with connections := s'.connections ++ [c] }
    let (s3, out) := execute_pending_request accepts c s2
    (s3, [Notif.connectN] ++ out)
  else (s', [Notif.connectN])

/-- Embeds `Pool::on_connection_close(connection)`: drop `c` from the ready
set, escalate to closing when `c` is defunct, then `maybe_close()`. -/
def on_connection_close (env : Env) (c : Nat) (s : PoolState) :
    PoolState × List Notif :=
  let s' : PoolState :=
    { s with connections := s.connections.filter (· ≠ c),
             isClosing := s.isClosing || (env c).defunct }
  (s', maybe_close env s')

/-- Embeds `Pool::borrow_connection()` (its state effect): `nullptr` and no
change when closing; when the ready set is empty, spawn
`core_connections_per_host` connections; otherwise
`maybe_spawn_connection()`.  The returned connection is computed by
`find_least_busy`, which touches no pool state. -/
def borrow_connection (cfg : Config) (s : PoolState) :
    PoolState × List Notif :=
  if s.isClosing then (s, [])
  else if s.connections.isEmpty then
    spawnLoop cfg.core_connections_per_host s
  else maybe_spawn_connection cfg s

/-- The asynchronous events of the claim: `borrow_connection`,
`wait_for_connection`, connect completions, close completions, timer
expiry, and `close()`.  Each event that reads connection attributes or an
`execute` result carries those environment choices. -/
inductive Event where
  | borrow : Event
  | waitFor (rid : Nat) : Event
  | connected (c : Nat) (accepts : Bool) : Event
  | closed (c : Nat) : Event
  | timedOut (rid : Nat) : Event
  | closePool : Event

/-- One event delivered to the pool, with the attribute snapshot the
pool observes while handling it. -/
def step (cfg : Config) (env : Env) : Event → PoolState → PoolState × List Notif
  | Event.borrow, s => borrow_connection cfg s
  | Event.waitFor rid, s =>
    let (s', out, _) := wait_for_connection cfg rid s
    (s', out)
  | Event.connected c accepts, s => on_connection_connect env accepts c s
  | Event.closed c, s => on_connection_close env c s
  | Event.timedOut rid, s => Pool.on_timeout env rid s
  | Event.closePool, s => Pool.close env s

/-- Run a sequence of events, each with its environment snapshot,
collecting every emitted notification in order. -/
def runP (cfg : Config) : PoolState → List (Event × Env) → PoolState × List Notif
  | s, [] => (s, [])
  | s, p :: tr =>
    ((runP cfg (step cfg p.2 p.1 s).1 tr).1,
     (step cfg p.2 p.1 s).2 ++ (runP cfg (step cfg p.2 p.1 s).1 tr).2)

/-- A state is reachable when some event trace leads the freshly
constructed pool to it. -/
def Reachable (cfg : Config) (s : PoolState) : Prop :=
  ∃ tr : List (Event × Env), (runP cfg (mkPool cfg).1 tr).1 = s

/-! ## Least-busy selection (`find_least_busy`, `least_busy_comp`) -/

/-- One element of the `connections_` collection as `find_least_busy`
sees it: its identity plus the attributes it currently reports. -/
structure Conn where
  id : Nat
  attrs : ConnAttrs
  deriving Repr, DecidableEq

/-- Embeds `Pool::least_busy_comp`:
`a->available_streams() < b->available_streams()`. -/
def least_busy_comp (a b : Conn) : Bool :=
  a.attrs.availableStreams < b.attrs.availableStreams

/-- Embeds `std::max_element(first, last, comp)`: the first element of the
range that no later element strictly beats under `comp`; the end
iterator (`none`) for an empty range. -/
def max_element (comp : Conn → Conn → Bool) : List Conn → Option Conn
  | [] => none
  | x :: xs => some (xs.foldl (fun best y => if comp best y then y else best) x)

/-- Embeds `Pool::find_least_busy()`.  The code dereferences the iterator
returned by `std::max_element` unconditionally; on an empty collection
that iterator is the end iterator and the dereference `(*it)` is
undefined behavior, modelled as `Except.error`.  Otherwise the single
maximal element is checked for `is_ready()` and a nonzero
`available_streams()`; failing that check yields `nullptr` (`ok none`). -/
def find_least_busy (l : List Conn) : Except Unit (Option Conn) :=
  match max_element least_busy_comp l with
  | none => Except.error ()
  | some c =>
    Except.ok (if c.attrs.ready && c.attrs.availableStreams ≠ 0
               then some c else none)

/-! ## The per-request response router (`Pool::PoolHandler`)

The handler's observable behavior is the ordered list of calls it makes
(on the caller's `request_handler_`, on its `connection_`, and on the
pool), plus who owns the caller's request handler when it returns. -/

/-- Wire-protocol opcode `RESULT` (`CQL_OPCODE_RESULT`, defined outside
this file; value `0x08` in the CQL binary protocol). -/
def CQL_OPCODE_RESULT : Nat := 8

/-- Wire-protocol opcode `ERROR` (`CQL_OPCODE_ERROR`, defined outside
this file; value `0x00` in the CQL binary protocol). -/
def CQL_OPCODE_ERROR : Nat := 0

/-- Protocol error code `unprepared` (`CQL_ERROR_UNPREPARED`, defined
outside this file; value `0x2500` in the CQL binary protocol). -/
def CQL_ERROR_UNPREPARED : Nat := 9472

/-- The driver error code `CASS_ERROR_LIB_WRITE_ERROR` (defined outside
this file); only its distinctness from other `CassError` values matters
to the control flow. -/
def CASS_ERROR_LIB_WRITE_ERROR : Nat := 3

/-- A decoded response `Message`: its opcode, and — when the opcode is
`CQL_OPCODE_ERROR` — the error code its `BodyError` body carries. -/
structure Message where
  opcode : Nat
  bodyErrorCode : Nat
  deriving Repr, DecidableEq

/-- A call delivered to the caller's `RequestHandler`. -/
inductive HandlerCall where
  | onSet (m : Message)
  | onError (code : Nat) (msg : String)
  | onTimeout
  deriving Repr, DecidableEq

/-- Who owns the caller's request handler after the router resolves an
outcome: still the router's `std::unique_ptr`, or released
(transferred, never copied) into a freshly issued `PrepareHandler`. -/
inductive Owner where
  | router
  | prepareHandler
  deriving Repr, DecidableEq

/-- The calls a `PoolHandler` makes while resolving one outcome. -/
inductive Effect where
  /-- a call on the caller's `request_handler_` -/
  | caller (call : HandlerCall)
  /-- `pool_->retry_callback_(request_handler_.get(), RETRY_WITH_NEXT_HOST)` -/
  | retryNextHost
  /-- `connection_->execute(new PrepareHandler(pool_->retry_callback_,
      request_handler_.release()))` on connection `c` -/
  | prepareExecute (c : Nat)
  /-- `connection_->defunct()` on connection `c` -/
  | defunctCmd (c : Nat)
  /-- `pool_->execute_pending_request(connection_)` on connection `c` -/
  | execPending (c : Nat)
  deriving Repr, DecidableEq

/-- Embeds `PoolHandler::finish_request()`: when `connection_->is_ready()`,
run `execute_pending_request` on it. -/
def finish_request (conn : Nat) (connReady : Bool) : List Effect :=
  if connReady then [Effect.execPending conn] else []

/-- Embeds `PoolHandler::on_error_response(response)`: an `unprepared`
error re-issues the request as a prepare-then-execute sequence on the
same connection, releasing the handler into it; any other embedded
error is forwarded to the caller via `on_set`. -/
def PoolHandler.on_error_response (conn : Nat) (m : Message) :
    List Effect × Owner :=
  if m.bodyErrorCode = CQL_ERROR_UNPREPARED then
    ([Effect.prepareExecute conn], Owner.prepareHandler)
  else
    ([Effect.caller (HandlerCall.onSet m)], Owner.router)

/-- Embeds `PoolHandler::on_set(response)`: `RESULT` is forwarded to the
caller; `ERROR` goes through `on_error_response`; any other opcode is
forwarded to the caller and the connection is marked defunct.  In every
case `finish_request()` runs afterwards. -/
def PoolHandler.on_set (conn : Nat) (connReady : Bool) (m : Message) :
    List Effect × Owner :=
  let (effs, ow) :=
    if m.opcode = CQL_OPCODE_RESULT then
      ([Effect.caller (HandlerCall.onSet m)], Owner.router)
    else if m.opcode = CQL_OPCODE_ERROR then
      PoolHandler.on_error_response conn m
    else
      ([Effect.caller (HandlerCall.onSet m), Effect.defunctCmd conn],
       Owner.router)
  (effs ++ finish_request conn connReady, ow)

/-- Embeds `PoolHandler::on_error(code, message)`: a
`CASS_ERROR_LIB_WRITE_ERROR` fires the pool's retry callback with
`RETRY_WITH_NEXT_HOST`; every other code is forwarded to the caller's
`on_error`.  Then `finish_request()`. -/
def PoolHandler.on_error (conn : Nat) (connReady : Bool)
    (code : Nat) (msg : String) : List Effect :=
  (if code = CASS_ERROR_LIB_WRITE_ERROR then [Effect.retryNextHost]
   else [Effect.caller (HandlerCall.onError code msg)])
    ++ finish_request conn connReady

/-- Embeds `PoolHandler::on_timeout()`: forward to the caller's
`on_timeout`, then `finish_request()`. -/
def PoolHandler.on_timeout (conn : Nat) (connReady : Bool) : List Effect :=
  [Effect.caller HandlerCall.onTimeout] ++ finish_request conn connReady

/-- True when some effect in the list is a call on the caller's
request handler (of any kind). -/
def callsCaller (effs : List Effect) : Bool :=
  effs.any fun e =>
    match e with
    | Effect.caller _ => true
    | _ => false

/-- True when some effect in the list is a call of the caller's
`on_error`. -/
def callsCallerOnError (effs : List Effect) : Bool :=
  effs.any fun e =>
    match e with
    | Effect.caller (HandlerCall.onError _ _) => true
    | _ => false

/-- An attribute snapshot in which every connection reports
not-ready, not-closing, not-defunct, zero streams. -/
def envDefault : Env := fun _ => ⟨false, false, false, 0⟩

/-- An attribute snapshot in which exactly connection `d` reports
defunct; everyone reports ready with one available stream. -/
def envDefunct (d : Nat) : Env := fun c => ⟨true, false, c == d, 1⟩

/-- A trace of `on_connection_close` completions: one `Event.closed`
per listed connection, each with its own attribute snapshot. -/
def closedTrace : List Nat → List Env → List (Event × Env)
  | c :: cs, e :: es => (Event.closed c, e) :: closedTrace cs es
  | _, _ => []

/-! ## Theorems -/

/-- The result of the `std::max_element` fold is the initial candidate
or one of the scanned elements. -/
theorem foldl_max_mem (xs : List Conn) (a : Conn) :
    xs.foldl (fun best y => if least_busy_comp best y then y else best) a = a
      ∨ xs.foldl (fun best y => if least_busy_comp best y then y else best) a ∈ xs := by
  induction xs generalizing a with
  | nil => exact Or.inl rfl
  | cons y ys ih =>
    simp only [List.foldl_cons]
    rcases ih (if least_busy_comp a y then y else a) with h | h
    · rw [h]
      by_cases hc : least_busy_comp a y
      · simp only [hc, if_true]
        exact Or.inr (List.mem_cons_self _ _)
      · simp only [hc, if_false]
        exact Or.inl rfl
    · exact Or.inr (List.mem_cons_of_mem _ h)

/-- The result of the `std::max_element` fold dominates the initial
candidate and every scanned element in `available_streams`. -/
theorem foldl_max_ge (xs : List Conn) (a : Conn) :
    a.attrs.availableStreams
      ≤ (xs.foldl (fun best y => if least_busy_comp best y then y else best)
          a).attrs.availableStreams
    ∧ ∀ c ∈ xs, c.attrs.availableStreams
        ≤ (xs.foldl (fun best y => if least_busy_comp best y then y else best)
            a).attrs.availableStreams := by
  induction xs generalizing a with
  | nil => exact ⟨le_refl _, by simp⟩
  | cons y ys ih =>
    simp only [List.foldl_cons]
    have hab : a.attrs.availableStreams
        ≤ (if least_busy_comp a y then y else a).attrs.availableStreams := by
      by_cases hc : least_busy_comp a y
      · rw [if_pos hc]
        simp only [least_busy_comp, decide_eq_true_eq] at hc
        omega
      · rw [if_neg hc]
    have hyb : y.attrs.availableStreams
        ≤ (if least_busy_comp a y then y else a).attrs.availableStreams := by
      by_cases hc : least_busy_comp a y
      · rw [if_pos hc]
      · rw [if_neg hc]
        simp only [least_busy_comp, decide_eq_true_eq, not_lt] at hc
        omega
    refine ⟨le_trans hab (ih _).1, ?_⟩
    intro c hc
    rcases List.mem_cons.mp hc with hc | hc
    · rw [hc]
      exact le_trans hyb (ih _).1
    · exact (ih _).2 c hc

/-- Unfolding one step of `runP`. -/
theorem runP_cons (cfg : Config) (e : Event) (env : Env)
    (tr : List (Event × Env)) (s : PoolState) :
    runP cfg s ((e, env) :: tr)
      = ((runP cfg (step cfg env e s).1 tr).1,
         (step cfg env e s).2 ++ (runP cfg (step cfg env e s).1 tr).2) := rfl

/-- No close notification hides among the close commands `maybe_close`
sends to the still-open connections. -/
theorem count_closeN_map_connClose (l : List Nat) :
    (l.map Notif.connCloseCmd).count Notif.closeN = 0 := by
  rw [List.count_eq_zero]
  intro h
  rcases List.mem_map.mp h with ⟨c, _, hc⟩
  cases hc

/-- The number of close notifications a single `maybe_close` run fires:
one exactly when the pool is closing with ready set, connecting set and
queue all empty, zero otherwise. -/
theorem count_closeN_maybe_close (env : Env) (s : PoolState) :
    (maybe_close env s).count Notif.closeN
      = if s.isClosing
        then (if s.connections.isEmpty && s.connectionsPending.isEmpty
                 && s.pendingRequestQueue.isEmpty then 1 else 0)
        else 0 := by
  unfold maybe_close
  by_cases h : s.isClosing
  · rw [if_pos h, if_pos h, List.count_append, count_closeN_map_connClose]
    by_cases he : s.connections.isEmpty && s.connectionsPending.isEmpty
        && s.pendingRequestQueue.isEmpty
    · rw [if_pos he, if_pos he]
      rfl
    · rw [if_neg he, if_neg he]
      rfl
  · rw [if_neg h, if_neg h]
    rfl

/-- Draining a closing pool: from a closing state with empty connecting
set and empty queue, delivering close completions for all ready
connections (in any order, under any attribute snapshots) fires the
close notification exactly once — at the final completion, never on a
proper prefix. -/
theorem drain_close_once (cfg : Config) (order : List Nat) :
    ∀ (envs : List Env) (s : PoolState),
      envs.length = order.length →
      s.isClosing = true →
      s.connectionsPending = [] →
      s.pendingRequestQueue = [] →
      s.connections.Nodup →
      order.Perm s.connections →
      ((runP cfg s (closedTrace order envs)).2.count Notif.closeN
          = if order.isEmpty then 0 else 1)
      ∧ (∀ k, k < order.length →
          (runP cfg s ((closedTrace order envs).take k)).2.count Notif.closeN
            = 0) := by
  induction order with
  | nil =>
    intro envs s _ _ _ _ _ _
    refine ⟨by simp [closedTrace, runP], ?_⟩
    intro k hk
    exact absurd hk (Nat.not_lt_zero k)
  | cons c order' ih =>
    intro envs s hlen hcl hpend hq hnd hperm
    rcases envs with _ | ⟨e, envs'⟩
    · simp at hlen
    have hlen' : envs'.length = order'.length := by simpa using hlen
    have hnd' : (c :: order').Nodup := hperm.symm.nodup hnd
    have hc0 : c ∉ order' := (List.nodup_cons.mp hnd').1
    have hndo : order'.Nodup := (List.nodup_cons.mp hnd').2
    -- the connections list after removing `c` is a permutation of `order'`
    have hfilt : List.Perm (s.connections.filter (· ≠ c)) order' := by
      have h1 : List.Perm s.connections (c :: order') := hperm.symm
      have h2 := h1.filter (· ≠ c)
      have h3 : (c :: order').filter (· ≠ c) = order' := by
        rw [List.filter_cons_of_neg (by simp)]
        refine List.filter_eq_self.mpr ?_
        intro a ha
        exact decide_eq_true (fun hac => hc0 (hac ▸ ha))
      rw [h3] at h2
      exact h2
    have hstep : step cfg e (Event.closed c) s
        = ({ s with connections := s.connections.filter (· ≠ c),
                    isClosing := true },
           maybe_close e
             { s with connections := s.connections.filter (· ≠ c),
                      isClosing := true }) := by
      simp [step, on_connection_close, hcl]
    have hfst : (step cfg e (Event.closed c) s).1
        = { s with connections := s.connections.filter (· ≠ c),
                   isClosing := true } := by
      rw [hstep]
    have hemp : (s.connections.filter (· ≠ c)).isEmpty = order'.isEmpty := by
      rcases order' with _ | ⟨o, os⟩
      · rw [hfilt.eq_nil]
      · rcases h : s.connections.filter (· ≠ c) with _ | ⟨a, as⟩
        · rw [h] at hfilt
          exact absurd hfilt.symm.eq_nil (by simp)
        · rfl
    have hcount1 : (step cfg e (Event.closed c) s).2.count Notif.closeN
        = if order'.isEmpty then 1 else 0 := by
      rw [hstep]
      dsimp only
      rw [count_closeN_maybe_close]
      dsimp only
      rw [hpend, hq, hemp]
      simp
    have hih := ih envs'
      { s with connections := s.connections.filter (· ≠ c), isClosing := true }
      hlen' rfl hpend hq (hnd.filter _) hfilt.symm
    constructor
    · show (runP cfg s
          ((Event.closed c, e) :: closedTrace order' envs')).2.count Notif.closeN
        = _
      rw [runP_cons, List.count_append, hcount1, hfst, hih.1]
      rcases order' with _ | ⟨o, os⟩
      · rfl
      · rfl
    · intro k hk
      rcases k with _ | k'
      · simp [runP]
      · have hk' : k' < order'.length := by simpa using hk
        have hord : order'.isEmpty = false := by
          rcases order' with _ | ⟨o, os⟩
          · exact absurd hk' (by simp)
          · rfl
        show (runP cfg s
            ((Event.closed c, e) :: (closedTrace order' envs').take k')).2.count
              Notif.closeN = 0
        rw [runP_cons, List.count_append, hcount1, hord, hfst, hih.2 k' hk']
        simp

/-- The guarded growth path respects the hard ceiling: when connecting
plus ready is within `max_connections_per_host`, it still is after
`maybe_spawn_connection` — the cap violations of C1 come from the other
spawn paths (the constructor and the empty-ready branch of
`borrow_connection`), which bypass this check. -/
theorem maybe_spawn_connection_respects_max_connections (cfg : Config)
    (s : PoolState)
    (h : s.connections.length + s.connectionsPending.length
        ≤ cfg.max_connections_per_host) :
    (maybe_spawn_connection cfg s).1.connections.length
      + (maybe_spawn_connection cfg s).1.connectionsPending.length
      ≤ cfg.max_connections_per_host := by
  unfold maybe_spawn_connection spawn_connection
  by_cases h1 : s.connectionsPending.length ≥ cfg.max_simultaneous_creation
  · rw [if_pos h1]
    exact h
  · rw [if_neg h1]
    by_cases h2 : s.connections.length + s.connectionsPending.length
        ≥ cfg.max_connections_per_host
    · rw [if_pos h2]
      exact h
    · rw [if_neg h2]
      by_cases h3 : s.isClosing
      · rw [if_pos h3]
        exact h
      · rw [if_neg h3]
        simp only [List.length_append, List.length_cons, List.length_nil]
        omega

/-- The guarded growth path respects the connect throttle: when the
connecting set is within `max_simultaneous_creation`, it still is after
`maybe_spawn_connection` — the violations of C2 likewise come from the
unguarded spawn paths. -/
theorem maybe_spawn_connection_respects_max_simultaneous (cfg : Config)
    (s : PoolState)
    (h : s.connectionsPending.length ≤ cfg.max_simultaneous_creation) :
    (maybe_spawn_connection cfg s).1.connectionsPending.length
      ≤ cfg.max_simultaneous_creation := by
  unfold maybe_spawn_connection spawn_connection
  by_cases h1 : s.connectionsPending.length ≥ cfg.max_simultaneous_creation
  · rw [if_pos h1]
    exact h
  · rw [if_neg h1]
    by_cases h2 : s.connections.length + s.connectionsPending.length
        ≥ cfg.max_connections_per_host
    · rw [if_pos h2]
      exact h
    · rw [if_neg h2]
      by_cases h3 : s.isClosing
      · rw [if_pos h3]
        exact h
      · rw [if_neg h3]
        simp only [List.length_append, List.length_cons, List.length_nil]
        omega

/-- Membership of a close command in a `maybe_close` run: a closing pool
issues `c->close()` to every ready-set connection not already closing. -/
theorem connCloseCmd_mem_maybe_close (env : Env) (s : PoolState) (c : Nat)
    (hcl : s.isClosing = true) (hc : c ∈ s.connections)
    (hnc : (env c).closing = false) :
    Notif.connCloseCmd c ∈ maybe_close env s := by
  unfold maybe_close
  rw [if_pos hcl]
  refine List.mem_append.mpr (Or.inl ?_)
  refine List.mem_map_of_mem _ ?_
  exact List.mem_filter.mpr ⟨hc, by simp [hnc]⟩

/-- C8: from an open pool whose ready set is `c₀ :: cs` (connecting set
and queue empty), the close completion of defunct connection `c₀` turns
the pool state to closing and issues a close to every other ready
connection not already closing; over the whole drain — the remaining
close completions in any order `order`, under any per-step attribute
snapshots `envs` — the close notification fires exactly once, and on
every proper prefix of the drain it has not fired at all (it fires only
once ready set, connecting set and queue are all empty). -/
theorem C8_defunct_close_drains_pool (cfg : Config) (c₀ : Nat) (cs : List Nat)
    (n : Nat) (env₀ : Env) (order : List Nat) (envs : List Env)
    (hnd : (c₀ :: cs).Nodup)
    (hdef : (env₀ c₀).defunct = true)
    (hperm : order.Perm cs)
    (hlen : envs.length = order.length) :
    ((step cfg env₀ (Event.closed c₀)
        (PoolState.mk (c₀ :: cs) [] [] false n)).1.isClosing = true)
    ∧ (cs.all (fun c => (env₀ c).closing
          || decide (Notif.connCloseCmd c ∈ (step cfg env₀ (Event.closed c₀)
              (PoolState.mk (c₀ :: cs) [] [] false n)).2)) = true)
    ∧ ((runP cfg (PoolState.mk (c₀ :: cs) [] [] false n)
          ((Event.closed c₀, env₀) :: closedTrace order envs)).2.count
        Notif.closeN = 1)
    ∧ ((List.range (1 + order.length)).all (fun k =>
          (runP cfg (PoolState.mk (c₀ :: cs) [] [] false n)
            (((Event.closed c₀, env₀) :: closedTrace order envs).take k)).2.count
              Notif.closeN == 0) = true) := by
  have hc0 : c₀ ∉ cs := (List.nodup_cons.mp hnd).1
  have hndcs : cs.Nodup := (List.nodup_cons.mp hnd).2
  have hconn : List.filter (fun x => !decide (x = c₀)) cs = cs := by
    refine List.filter_eq_self.mpr ?_
    intro a ha
    simp only [Bool.not_eq_true', decide_eq_false_iff_not]
    exact fun h => hc0 (h ▸ ha)
  have hstep : step cfg env₀ (Event.closed c₀)
        (PoolState.mk (c₀ :: cs) [] [] false n)
      = (PoolState.mk cs [] [] true n,
         maybe_close env₀ (PoolState.mk cs [] [] true n)) := by
    simp only [step, on_connection_close, hdef]
    simp [hconn]
  have hfst : (step cfg env₀ (Event.closed c₀)
        (PoolState.mk (c₀ :: cs) [] [] false n)).1
      = PoolState.mk cs [] [] true n := by
    rw [hstep]
  have h1 : (step cfg env₀ (Event.closed c₀)
        (PoolState.mk (c₀ :: cs) [] [] false n)).2.count Notif.closeN
      = if cs.isEmpty then 1 else 0 := by
    rw [hstep]
    dsimp only
    rw [count_closeN_maybe_close]
    simp
  have horder : order.isEmpty = cs.isEmpty := by
    have hl := hperm.length_eq
    rcases order with _ | ⟨o, os⟩ <;> rcases cs with _ | ⟨x, xs⟩ <;> simp_all
  have hdrain := drain_close_once cfg order envs (PoolState.mk cs [] [] true n)
    hlen rfl rfl rfl hndcs hperm
  refine ⟨by rw [hfst], ?_, ?_, ?_⟩
  · rw [List.all_eq_true]
    intro c hc
    by_cases hcb : (env₀ c).closing
    · simp [hcb]
    · have hmem : Notif.connCloseCmd c ∈ (step cfg env₀ (Event.closed c₀)
          (PoolState.mk (c₀ :: cs) [] [] false n)).2 := by
        rw [hstep]
        exact connCloseCmd_mem_maybe_close env₀ (PoolState.mk cs [] [] true n)
          c rfl hc (Bool.eq_false_iff.mpr hcb)
      simp [hmem]
  · rw [runP_cons, List.count_append, h1, hfst, hdrain.1, horder]
    cases hb : cs.isEmpty <;> simp
  · rw [List.all_eq_true]
    intro k hk
    rw [beq_iff_eq]
    rcases k with _ | k'
    · simp [runP]
    · have hk2 : k' < order.length := by
        have := List.mem_range.mp hk
        omega
      have hordne : order.isEmpty = false := by
        rcases order with _ | ⟨o, os⟩
        · exact absurd hk2 (by simp)
        · rfl
      have hcsne : cs.isEmpty = false := by rw [← horder, hordne]
      show (runP cfg (PoolState.mk (c₀ :: cs) [] [] false n)
          ((Event.closed c₀, env₀) :: (closedTrace order envs).take k')).2.count
            Notif.closeN = 0
      rw [runP_cons, List.count_append, h1, hcsne, hfst,
        hdrain.2 k' hk2]
      simp

/-- Witness for C8: a pool with ready connections `[0, 1, 2]`, where
connection 0 goes defunct and the remaining two complete their closes in
the order `[2, 1]`. -/
theorem C8_witness :
    ([0, 1, 2] : List Nat).Nodup
    ∧ (envDefunct 0 0).defunct = true
    ∧ ([2, 1] : List Nat).Perm [1, 2]
    ∧ ([envDefault, envDefault] : List Env).length = ([2, 1] : List Nat).length
    ∧ (((step (Config.mk 1 1 1 1 1) (envDefunct 0) (Event.closed 0)
          (PoolState.mk [0, 1, 2] [] [] false 3)).1.isClosing = true)
       ∧ (([1, 2] : List Nat).all (fun c => (envDefunct 0 c).closing
            || decide (Notif.connCloseCmd c ∈ (step (Config.mk 1 1 1 1 1)
                (envDefunct 0) (Event.closed 0)
                (PoolState.mk [0, 1, 2] [] [] false 3)).2)) = true)
       ∧ ((runP (Config.mk 1 1 1 1 1) (PoolState.mk [0, 1, 2] [] [] false 3)
            ((Event.closed 0, envDefunct 0)
              :: closedTrace [2, 1] [envDefault, envDefault])).2.count
          Notif.closeN = 1)
       ∧ ((List.range (1 + ([2, 1] : List Nat).length)).all (fun k =>
            (runP (Config.mk 1 1 1 1 1) (PoolState.mk [0, 1, 2] [] [] false 3)
              (((Event.closed 0, envDefunct 0)
                :: closedTrace [2, 1] [envDefault, envDefault]).take k)).2.count
                Notif.closeN == 0) = true)) :=
  ⟨by decide, rfl, by decide, rfl,
   C8_defunct_close_drains_pool (Config.mk 1 1 1 1 1) 0 [1, 2] 3
     (envDefunct 0) [2, 1] [envDefault, envDefault]
     (by decide) rfl (by decide) rfl⟩

/-- C10: `find_least_busy` computes the `available_streams`-maximum over
the whole collection and checks only that single maximal element for
readiness and nonzero capacity: whenever the element `std::max_element`
selects is not ready or has zero available streams, the result is
`nullptr` (`ok none`) — regardless of any other connection in the list
being ready with spare capacity. -/
theorem C10_only_max_checked (l : List Conn) (m : Conn)
    (hm : max_element least_busy_comp l = some m)
    (hbad : m.attrs.ready = false ∨ m.attrs.availableStreams = 0) :
    m ∈ l
    ∧ l.all (fun c =>
        c.attrs.availableStreams ≤ m.attrs.availableStreams) = true
    ∧ find_least_busy l = Except.ok none := by
  rcases l with _ | ⟨x, xs⟩
  · cases hm
  · have hmfold : xs.foldl
        (fun best y => if least_busy_comp best y then y else best) x = m :=
      Option.some.inj hm
    refine ⟨?_, ?_, ?_⟩
    · rcases foldl_max_mem xs x with h | h
      · rw [hmfold] at h
        rw [h]
        exact List.mem_cons_self _ _
      · rw [hmfold] at h
        exact List.mem_cons_of_mem _ h
    · rw [List.all_eq_true]
      intro c hc
      rcases List.mem_cons.mp hc with hc | hc
      · rw [hc, ← hmfold]
        exact decide_eq_true (foldl_max_ge xs x).1
      · rw [← hmfold]
        exact decide_eq_true ((foldl_max_ge xs x).2 c hc)
    · unfold find_least_busy
      rw [hm]
      rcases hbad with hb | hb
      · simp [hb]
      · simp [hb]

/-- Witness for C10: in the list `[⟨not ready, 10 streams⟩,
⟨ready, 5 streams⟩]` the maximal element is the first, it is not ready,
and `find_least_busy` returns no connection even though the second
connection is ready with spare capacity. -/
theorem C10_witness :
    max_element least_busy_comp
        [Conn.mk 0 (ConnAttrs.mk false false false 10),
         Conn.mk 1 (ConnAttrs.mk true false false 5)]
      = some (Conn.mk 0 (ConnAttrs.mk false false false 10))
    ∧ ((Conn.mk 0 (ConnAttrs.mk false false false 10)).attrs.ready = false
        ∨ (Conn.mk 0 (ConnAttrs.mk false false false 10)).attrs.availableStreams = 0)
    ∧ (Conn.mk 0 (ConnAttrs.mk false false false 10)
          ∈ [Conn.mk 0 (ConnAttrs.mk false false false 10),
             Conn.mk 1 (ConnAttrs.mk true false false 5)]
       ∧ [Conn.mk 0 (ConnAttrs.mk false false false 10),
          Conn.mk 1 (ConnAttrs.mk true false false 5)].all (fun c =>
            c.attrs.availableStreams
              ≤ (Conn.mk 0 (ConnAttrs.mk false false false 10)).attrs.availableStreams)
          = true
       ∧ find_least_busy
           [Conn.mk 0 (ConnAttrs.mk false false false 10),
            Conn.mk 1 (ConnAttrs.mk true false false 5)] = Except.ok none)
    ∧ (Conn.mk 1 (ConnAttrs.mk true false false 5)).attrs.ready = true
    ∧ (Conn.mk 1 (ConnAttrs.mk true false false 5)).attrs.availableStreams ≠ 0 :=
  ⟨rfl, Or.inl rfl,
   C10_only_max_checked _ _ rfl (Or.inl rfl),
   rfl, by decide⟩

/-- C5: the claim states `find_least_busy` on an empty ready set returns
"no connection" without error; the code instead dereferences the end
iterator `std::max_element` returns on an empty collection — undefined
behavior, modelled as `Except.error`.  This theorem evaluates the code
at the failing input. -/
theorem C5_find_least_busy_empty_derefs_end :
    find_least_busy [] = Except.error () := rfl

/-- C4: `wait_for_connection` fails, with no side effect on the pool,
exactly when the pool is closing or the queue length equals
`max_pending_requests` (assuming the admission invariant length ≤ limit);
otherwise it starts a `connect_timeout` timer for the request, appends
the request at the tail, and returns success.  Boundary: at the limit
rejects, one below admits. -/
theorem C4_wait_for_connection_boundary (cfg : Config) (rid : Nat) (s : PoolState)
    (hlen : s.pendingRequestQueue.length ≤ cfg.max_pending_requests) :
    ((wait_for_connection cfg rid s).2.2 = false
        ↔ (s.isClosing = true ∨
           s.pendingRequestQueue.length = cfg.max_pending_requests))
    ∧ ((s.isClosing = true ∨
        s.pendingRequestQueue.length = cfg.max_pending_requests)
        → wait_for_connection cfg rid s = (s, [], false))
    ∧ (s.isClosing = false
        → s.pendingRequestQueue.length < cfg.max_pending_requests
        → wait_for_connection cfg rid s =
            ({ s with pendingRequestQueue :=
                s.pendingRequestQueue ++ [⟨rid, some cfg.connect_timeout⟩] },
             [Notif.timerStart rid cfg.connect_timeout], true)) := by
  by_cases h1 : s.isClosing
  · refine ⟨by simp [wait_for_connection, h1], fun _ => by simp [wait_for_connection, h1],
      fun h2 _ => by rw [h1] at h2; cases h2⟩
  · by_cases h2 : s.pendingRequestQueue.length + 1 > cfg.max_pending_requests
    · have h3 : s.pendingRequestQueue.length = cfg.max_pending_requests := by omega
      refine ⟨by simp [wait_for_connection, h1, h2, h3],
        fun _ => by simp [wait_for_connection, h1, h2],
        fun _ h4 => by omega⟩
    · refine ⟨by simp [wait_for_connection, h1, h2]; omega,
        fun h3 => ?_, fun _ _ => by simp [wait_for_connection, h1, h2]⟩
      rcases h3 with h3 | h3
      · exact absurd h3 h1
      · omega

/-- Witness for C4: on an open pool with one queued request and
`max_pending_requests = 2`, admission succeeds and appends at the tail
with a timer of duration `connect_timeout = 5`. -/
theorem C4_witness :
    (PoolState.mk [] [] [Req.mk 9 (some 5)] false 0).pendingRequestQueue.length
        ≤ (Config.mk 1 2 1 2 5).max_pending_requests
    ∧ wait_for_connection (Config.mk 1 2 1 2 5) 7
        (PoolState.mk [] [] [Req.mk 9 (some 5)] false 0)
        = (PoolState.mk [] [] [Req.mk 9 (some 5), Req.mk 7 (some 5)] false 0,
           [Notif.timerStart 7 5], true) :=
  ⟨by decide,
   by
     have h := C4_wait_for_connection_boundary (Config.mk 1 2 1 2 5) 7
       (PoolState.mk [] [] [Req.mk 9 (some 5)] false 0) (by decide)
     exact h.2.2 rfl (by decide)⟩

/-- C6: a successful response whose opcode is `ERROR` with an
`unprepared` error code gives the caller's handler neither a result nor
an error; the router instead issues a prepare-then-execute sequence on
the same connection, and ownership of the request handler is released
(transferred, not duplicated) into that sequence. -/
theorem C6_unprepared_transfers_to_prepare (conn : Nat) (connReady : Bool)
    (m : Message)
    (hop : m.opcode = CQL_OPCODE_ERROR)
    (hcode : m.bodyErrorCode = CQL_ERROR_UNPREPARED) :
    PoolHandler.on_set conn connReady m
      = ([Effect.prepareExecute conn] ++ finish_request conn connReady,
         Owner.prepareHandler)
    ∧ callsCaller (PoolHandler.on_set conn connReady m).1 = false := by
  have hne : ¬ m.opcode = CQL_OPCODE_RESULT := by
    rw [hop]; decide
  constructor
  · simp [PoolHandler.on_set, PoolHandler.on_error_response, hop, hcode, hne,
      CQL_OPCODE_RESULT, CQL_OPCODE_ERROR]
  · cases connReady <;>
      simp [PoolHandler.on_set, PoolHandler.on_error_response, hop, hcode, hne,
        callsCaller, finish_request, CQL_OPCODE_RESULT, CQL_OPCODE_ERROR]

/-- Witness for C6: a concrete error response with the `unprepared`
code, on connection 4 which is still ready. -/
theorem C6_witness :
    (Message.mk 0 9472).opcode = CQL_OPCODE_ERROR
    ∧ (Message.mk 0 9472).bodyErrorCode = CQL_ERROR_UNPREPARED
    ∧ (PoolHandler.on_set 4 true (Message.mk 0 9472)
        = ([Effect.prepareExecute 4] ++ finish_request 4 true,
           Owner.prepareHandler)
       ∧ callsCaller (PoolHandler.on_set 4 true (Message.mk 0 9472)).1 = false) :=
  ⟨rfl, rfl, C6_unprepared_transfers_to_prepare 4 true (Message.mk 0 9472) rfl rfl⟩

/-- C7: a transport-level write error never invokes the caller's error
handler and fires the retry-on-different-host callback instead; every
other transport-level error is forwarded to the caller's error handler
and fires no retry. -/
theorem C7_write_error_failover (conn : Nat) (connReady : Bool)
    (code : Nat) (msg : String) :
    (Effect.retryNextHost ∈ PoolHandler.on_error conn connReady code msg
        ↔ code = CASS_ERROR_LIB_WRITE_ERROR)
    ∧ (Effect.caller (HandlerCall.onError code msg)
          ∈ PoolHandler.on_error conn connReady code msg
        ↔ ¬ code = CASS_ERROR_LIB_WRITE_ERROR)
    ∧ callsCallerOnError (PoolHandler.on_error conn connReady code msg)
        = decide (¬ code = CASS_ERROR_LIB_WRITE_ERROR) := by
  by_cases h : code = CASS_ERROR_LIB_WRITE_ERROR <;>
    cases connReady <;>
      simp [PoolHandler.on_error, callsCallerOnError, finish_request, h]

/-- C9: `execute_pending_request` pops exactly the queue head (leaving
the tail and every other pool field untouched, never re-appending), and
its emitted actions are: stop the head's timer when armed, then either
dispatch it on the given connection (when the transport accepts) or fire
retry-on-different-host (when it rejects); on an empty queue it changes
nothing and emits nothing. -/
theorem C9_execute_pending_request_fifo (accepts : Bool) (conn : Nat)
    (s : PoolState) :
    ((execute_pending_request accepts conn s).1.pendingRequestQueue
        = s.pendingRequestQueue.tail)
    ∧ ((execute_pending_request accepts conn s).1.connections = s.connections)
    ∧ ((execute_pending_request accepts conn s).1.connectionsPending
        = s.connectionsPending)
    ∧ ((execute_pending_request accepts conn s).1.isClosing = s.isClosing)
    ∧ ((execute_pending_request accepts conn s).1.nextConnId = s.nextConnId)
    ∧ ((execute_pending_request accepts conn s).2
        = match s.pendingRequestQueue.head? with
          | none => []
          | some r =>
            (match r.timer with
             | some _ => [Notif.timerStop r.rid]
             | none => [])
              ++ (if accepts then [Notif.dispatched r.rid conn]
                  else [Notif.retryN r.rid])) := by
  rcases s with ⟨cs, ps, q, cl, n⟩
  cases q <;> simp [execute_pending_request]

/-- C1: the claim asserts connecting + ready never exceeds
`max_connections_per_host`.  The code violates it: with
`core_connections_per_host = 2`, `max_connections_per_host = 3`, a
single `borrow_connection` on the freshly constructed pool (ready set
still empty) spawns `core_connections_per_host` more connections with no
cap check, reaching 4 connecting + ready. -/
theorem C1_borrow_exceeds_max_connections :
    Reachable (Config.mk 2 3 10 4 5)
      (runP (Config.mk 2 3 10 4 5) (mkPool (Config.mk 2 3 10 4 5)).1
        [(Event.borrow, envDefault)]).1
    ∧ ((runP (Config.mk 2 3 10 4 5) (mkPool (Config.mk 2 3 10 4 5)).1
          [(Event.borrow, envDefault)]).1.connections.length
        + (runP (Config.mk 2 3 10 4 5) (mkPool (Config.mk 2 3 10 4 5)).1
            [(Event.borrow, envDefault)]).1.connectionsPending.length
        = 4)
    ∧ (Config.mk 2 3 10 4 5).max_connections_per_host = 3 :=
  ⟨⟨[(Event.borrow, envDefault)], rfl⟩, by decide, rfl⟩

/-- C2: the claim asserts the connecting set never exceeds
`max_simultaneous_creation`.  The code violates it: with
`core_connections_per_host = 1` and `max_simultaneous_creation = 1`, a
single `borrow_connection` on the freshly constructed pool (ready set
still empty) spawns a second connection while the first is still
connecting — 2 simultaneously connecting sockets. -/
theorem C2_borrow_exceeds_max_simultaneous :
    Reachable (Config.mk 1 10 1 4 5)
      (runP (Config.mk 1 10 1 4 5) (mkPool (Config.mk 1 10 1 4 5)).1
        [(Event.borrow, envDefault)]).1
    ∧ ((runP (Config.mk 1 10 1 4 5) (mkPool (Config.mk 1 10 1 4 5)).1
          [(Event.borrow, envDefault)]).1.connectionsPending.length = 2)
    ∧ (Config.mk 1 10 1 4 5).max_simultaneous_creation = 1 :=
  ⟨⟨[(Event.borrow, envDefault)], rfl⟩, by decide, rfl⟩

/-- C3: the claim asserts two `close()` calls produce exactly one close
notification.  The code has no fired-already flag: on a pool whose
connection sets and queue are empty (here: the single core connection
completed its connect in a non-ready state), each `close()` call runs
`maybe_close()`, finds everything empty, and fires the notification —
two calls, two notifications. -/
theorem C3_double_close_double_notification :
    (runP (Config.mk 1 10 1 4 5) (mkPool (Config.mk 1 10 1 4 5)).1
        [(Event.connected 0 false, envDefault),
         (Event.closePool, envDefault),
         (Event.closePool, envDefault)]).2.count Notif.closeN = 2 := by
  decide

end CassPool
